import Mathlib

/-!
Verification of the ANSI styled-text renderer (kids.ansi).

The definitions below are a shallow embedding of src/kids/ansi/ansi.py.
Python dictionaries holding render state are modelled explicitly; in
particular, `dict.copy()` in `get_new_state` is shallow, so the list bound
to the key attrs is shared between the current state and the derived
state.  The embedding makes this sharing explicit: `get_new_state` returns
both the current state as it is after the call (its attrs list possibly
mutated) and the freshly derived state, and the render function `fmtE`
threads the single shared attrs list through evaluation.
-/

namespace KidsAnsi

/-- Escape introducer, source constant CSI. -/
def CSI : String := "\x1b["

/-- Source constant _ATTR: raw attribute label row, with skipped slots. -/
def _ATTR : String := "? bold faint italic underline blink ? reverse conceal strike"

/-- Source constant _COLORS. -/
def _COLORS : String := "black red green yellow blue magenta cyan white ? default"

/-- Source constant _CTL. -/
def _CTL : String := "reset"

/-- Helper for pySplit: accumulate the current word in reverse. -/
def splitAux (acc : List Char) : List Char → List String
  | [] => if acc.isEmpty then [] else [String.mk acc.reverse]
  | c :: rest =>
    if c = ' ' then
      if acc.isEmpty then splitAux [] rest
      else String.mk acc.reverse :: splitAux [] rest
    else splitAux (c :: acc) rest

/-- Python str.split with no argument: split on runs of spaces, dropping
empty fragments. -/
def pySplit (s : String) : List String := splitAux [] s.data

/-- Space separated join, inverse of pySplit on well behaved inputs. -/
def joinSpace : List String → String
  | [] => ""
  | [w] => w
  | w :: rest => w ++ " " ++ joinSpace rest

/-- Source function label2code: enumerate the space separated labels and map
each label other than the question mark to its escape sequence. -/
def label2code (labels : String) (offset : Nat) : List (String × String) :=
  (pySplit labels).enum.filterMap fun p =>
    if p.2 = "?" then none else some (p.2, CSI ++ toString (offset + p.1) ++ "m")

/-- Source constant _UNATTR, produced from _ATTR by the regular expression
substitution that puts un in front of every word. -/
def _UNATTR : String :=
  joinSpace ((pySplit _ATTR).map fun w => if w = "?" then w else "un" ++ w)

/-- Source table ATTR: base attribute codes updated with the un codes. -/
def ATTR : List (String × String) := label2code _ATTR 0 ++ label2code _UNATTR 20

/-- Source table FG. -/
def FG : List (String × String) := label2code _COLORS 30

/-- Source table BG. -/
def BG : List (String × String) := label2code _COLORS 40

/-- Source table CTL. -/
def CTL : List (String × String) := label2code _CTL 0

/-- Keys of the color tables. -/
def COLORkeys : List String := FG.map Prod.fst

/-- Keys of the attribute table. -/
def ATTRkeys : List String := ATTR.map Prod.fst

/-- Keys of the base (not un prefixed) attribute row. -/
def BASEkeys : List String := (label2code _ATTR 0).map Prod.fst

/-- Python string slicing from index two onward, on the character list. -/
def drop2 (l : String) : String := String.mk (l.data.drop 2)

/-- Source function invert_attr_label, with the ATTR table as the dct
argument: drop the first two characters when the result is a known label,
otherwise put un in front. -/
def invert_attr_label (l : String) : String :=
  if (ATTR.lookup (drop2 l)).isSome then drop2 l else "un" ++ l

/-- Message of a Python KeyError raised on key k. -/
def keyErr (k : String) : String := "KeyError: " ++ k

/-- A Python state dictionary as passed to state_change: any of the three
keys may be absent. -/
structure PyState where
  fg : Option String
  bg : Option String
  attrs : Option (List String)
deriving DecidableEq

/-- A fully keyed state dictionary, as built by the render protocol. -/
structure StyleState where
  fg : String
  bg : String
  attrs : List String
deriving DecidableEq

/-- The defs argument of get_new_state as built by ANSITextExpr.fmt:
optional fg, optional bg, and a toggle list for attrs. -/
structure StyleDefs where
  fg : Option String
  bg : Option String
  attrs : List String
deriving DecidableEq

/-- View of a fully keyed state as a state dictionary. -/
def toPy (s : StyleState) : PyState := ⟨some s.fg, some s.bg, some s.attrs⟩

/-- Unguarded dictionary indexing, raising KeyError on a missing key. -/
def getKeyE (o : Option String) (k : String) : Except String String :=
  match o with
  | some v => .ok v
  | none => .error (keyErr k)

/-- Indexing one of the code tables, raising KeyError on an unknown label. -/
def lookupE (d : List (String × String)) (l : String) : Except String String :=
  match d.lookup l with
  | some v => .ok v
  | none => .error (keyErr l)

/-- One color axis of the s_color comprehension in state_change: the guard
compares both sides against the label default, then the to state is indexed
unguarded and the code table is indexed with the resulting label. -/
def colorAxisE (d : List (String × String)) (k : String) (sa sb : Option String) :
    Except String (List String) :=
  if sa.getD "default" ≠ sb.getD "default" then
    match sb with
    | none => .error (keyErr k)
    | some l =>
      match d.lookup l with
      | none => .error (keyErr l)
      | some c => .ok [c]
  else .ok []

/-- Left to right indexing of a code table over a list of labels, as done by
the two attribute comprehensions of state_change. -/
def mapLookupE (d : List (String × String)) : List String → Except String (List String)
  | [] => .ok []
  | a :: rest =>
    match d.lookup a with
    | none => .error (keyErr a)
    | some c =>
      match mapLookupE d rest with
      | .error e => .error e
      | .ok cs => .ok (c :: cs)

/-- Source function state_change: colors first (fg then bg, each only when
the two sides differ under the default fallback), then the codes of the
attributes present only in the to state, then the codes of the inverted
labels of the attributes present only in the from state.  Python set
difference is modelled membership wise on the deduplicated list.  Failures
of the unguarded dictionary indexings are surfaced as KeyError values. -/
def state_change (sa sb : PyState) : Except String (List String) :=
  match colorAxisE FG "fg" sa.fg sb.fg with
  | .error e => .error e
  | .ok cfg =>
  match colorAxisE BG "bg" sa.bg sb.bg with
  | .error e => .error e
  | .ok cbg =>
  let saA := sa.attrs.getD []
  let sbA := sb.attrs.getD []
  match mapLookupE ATTR (sbA.dedup.filter fun a => decide (a ∉ saA)) with
  | .error e => .error e
  | .ok ons =>
  match mapLookupE ATTR ((saA.dedup.filter fun a => decide (a ∉ sbA)).map invert_attr_label) with
  | .error e => .error e
  | .ok offs => .ok (cfg ++ cbg ++ ons ++ offs)

/-- One toggle step of the attrs loop in get_new_state: if the inverted
label is present it is removed (first occurrence, as list.remove does),
otherwise the label itself is appended. -/
def toggleAttr (A : List String) (a : String) : List String :=
  if invert_attr_label a ∈ A then A.erase (invert_attr_label a) else A ++ [a]

/-- The whole attrs loop of get_new_state, in list order. -/
def mergeAttrs (A : List String) (toggles : List String) : List String :=
  toggles.foldl toggleAttr A

/-- Truthiness guard of get_new_state on one color axis: the source tests
the override value for truth before applying it, so both a missing value
and the empty string are skipped and the current label is kept. -/
def overrideLabel (o : Option String) (dflt : String) : String :=
  match o with
  | some v => if v = "" then dflt else v
  | none => dflt

/-- Source function get_new_state.  Because new_state is a shallow copy of
current, the two dictionaries share the attrs list, and the loop mutates
that shared list in place.  The embedding returns the pair of the current
state as observable after the call and the derived new state; the two
components always carry the same attrs list.  The color axes are applied
through the truthiness guard overrideLabel. -/
def get_new_state (current : StyleState) (defs : StyleDefs) : StyleState × StyleState :=
  let A := mergeAttrs current.attrs defs.attrs
  let nfg := overrideLabel defs.fg current.fg
  let nbg := overrideLabel defs.bg current.bg
  (⟨current.fg, current.bg, A⟩, ⟨nfg, nbg, A⟩)

/-- Expression tree of the renderer: plain text leaves (the non expression
branch of mk_or_str), ANSITextAtom, and ANSITextPair, the latter two each
carrying the optional fg and bg override and the attrs toggle list. -/
inductive AText where
  | txt (s : String)
  | atom (text : AText) (fg bg : Option String) (attrs : List String)
  | pair (car cdr : AText) (fg bg : Option String) (attrs : List String)
deriving DecidableEq

/-- Source method ANSITextExpr.fmt together with the mk methods of the
node classes.  The extra list argument is the contents of the single
shared attrs list at entry, and the result carries its contents at exit;
the fg and bg arguments are the color entries of the prev_state
dictionary.  Following the source, the new state is derived first
(mutating the shared attrs list), then the setup and close transitions are
computed, then the body is built. -/
def fmtE : AText → String → String → List String → Except String (String × List String)
  | .txt s, _, _, A => .ok (s, A)
  | .atom t f b ats, fg, bg, A =>
    let st := get_new_state ⟨fg, bg, A⟩ ⟨f, b, ats⟩
    match state_change (toPy st.1) (toPy st.2) with
    | .error e => .error e
    | .ok setup =>
      match state_change (toPy st.2) (toPy st.1) with
      | .error e => .error e
      | .ok close =>
        match fmtE t st.2.fg st.2.bg st.2.attrs with
        | .error e => .error e
        | .ok r => .ok (String.join setup ++ r.1 ++ String.join close, r.2)
  | .pair c d f b ats, fg, bg, A =>
    let st := get_new_state ⟨fg, bg, A⟩ ⟨f, b, ats⟩
    match state_change (toPy st.1) (toPy st.2) with
    | .error e => .error e
    | .ok setup =>
      match state_change (toPy st.2) (toPy st.1) with
      | .error e => .error e
      | .ok close =>
        match fmtE c st.2.fg st.2.bg st.2.attrs with
        | .error e => .error e
        | .ok r1 =>
          match fmtE d st.2.fg st.2.bg r1.2 with
          | .error e => .error e
          | .ok r2 =>
            .ok (String.join setup ++ (r1.1 ++ r2.1) ++ String.join close, r2.2)

/-- Text produced by a fmt call, discarding the final attrs list. -/
def renderText (e : AText) (fg bg : String) (A : List String) : Except String String :=
  (fmtE e fg bg A).map Prod.fst

/-- Source method ANSITextExpr.__str__: render from the default state with
a fresh empty attrs list, keeping the produced text. -/
def toStr (e : AText) : Except String String :=
  renderText e "default" "default" []

/-- Code of a label in a table, total with an empty fallback. -/
def axisCode (d : List (String × String)) (l : String) : String :=
  (d.lookup l).getD ""

/-- Modelled from the spec, section 4.2: the diff algorithm described
there, written independently of the source, for comparison with
state_change.  Color changes first in the fixed order fg then bg, each
emitted only when the two sides differ; then the codes of the attributes
present only in the to state; last the codes of the paired inverse labels
of the attributes present only in the from state. -/
def state_change_spec (sa sb : PyState) : List String :=
  (if sa.fg.getD "default" ≠ sb.fg.getD "default" then
      [axisCode FG (sb.fg.getD "default")] else [])
    ++ ((if sa.bg.getD "default" ≠ sb.bg.getD "default" then
      [axisCode BG (sb.bg.getD "default")] else [])
    ++ ((((sb.attrs.getD []).dedup.filter fun a =>
          decide (a ∉ sa.attrs.getD [])).map (axisCode ATTR))
    ++ (((sa.attrs.getD []).dedup.filter fun a =>
          decide (a ∉ sb.attrs.getD [])).map fun a => axisCode ATTR (invert_attr_label a))))

/-- Well-formed state dictionary: all three keys present, colors among the
color labels, attributes among the attribute labels. -/
def wfPy (s : PyState) : Prop :=
  s.fg.isSome ∧ s.fg.getD "default" ∈ COLORkeys ∧
  s.bg.isSome ∧ s.bg.getD "default" ∈ COLORkeys ∧
  s.attrs.isSome ∧ ∀ a ∈ s.attrs.getD [], a ∈ ATTRkeys

instance (s : PyState) : Decidable (wfPy s) := by
  unfold wfPy; infer_instance

lemma color_lookup_isSome : ∀ l ∈ COLORkeys, (FG.lookup l).isSome ∧ (BG.lookup l).isSome := by
  decide

lemma attr_lookup_isSome : ∀ a ∈ ATTRkeys, (ATTR.lookup a).isSome := by
  decide

lemma attr_inv_lookup_isSome : ∀ a ∈ ATTRkeys, (ATTR.lookup (invert_attr_label a)).isSome := by
  decide

lemma base_inv_ne : ∀ a ∈ BASEkeys, invert_attr_label a ≠ a := by
  decide

lemma colorAxisE_ok (d : List (String × String)) (k f1 f2 : String)
    (h : (d.lookup f2).isSome) :
    colorAxisE d k (some f1) (some f2) =
      .ok (if f1 ≠ f2 then [axisCode d f2] else []) := by
  obtain ⟨c, hc⟩ := Option.isSome_iff_exists.mp h
  unfold colorAxisE axisCode
  by_cases hne : f1 = f2
  · simp [hne]
  · simp [hne, hc]

lemma mapLookupE_ok (d : List (String × String)) (L : List String)
    (h : ∀ a ∈ L, (d.lookup a).isSome) :
    mapLookupE d L = .ok (L.map (axisCode d)) := by
  induction L with
  | nil => rfl
  | cons a rest ih =>
    obtain ⟨c, hc⟩ := Option.isSome_iff_exists.mp (h a (List.mem_cons_self a rest))
    have hrest := ih fun x hx => h x (List.mem_cons_of_mem a hx)
    unfold mapLookupE
    rw [hc, hrest]
    simp [axisCode, hc]

lemma state_change_wf_ok (sa sb : PyState) (ha : wfPy sa) (hb : wfPy sb) :
    state_change sa sb = .ok (state_change_spec sa sb) := by
  obtain ⟨ha1, ha2, ha3, ha4, ha5, ha6⟩ := ha
  obtain ⟨hb1, hb2, hb3, hb4, hb5, hb6⟩ := hb
  obtain ⟨f1, hf1⟩ := Option.isSome_iff_exists.mp ha1
  obtain ⟨g1, hg1⟩ := Option.isSome_iff_exists.mp ha3
  obtain ⟨A1, hA1⟩ := Option.isSome_iff_exists.mp ha5
  obtain ⟨f2, hf2⟩ := Option.isSome_iff_exists.mp hb1
  obtain ⟨g2, hg2⟩ := Option.isSome_iff_exists.mp hb3
  obtain ⟨A2, hA2⟩ := Option.isSome_iff_exists.mp hb5
  rw [hf1] at ha2; rw [hg1] at ha4; rw [hA1] at ha6
  rw [hf2] at hb2; rw [hg2] at hb4; rw [hA2] at hb6
  simp only [Option.getD_some] at ha2 ha4 ha6 hb2 hb4 hb6
  have hons : ∀ a ∈ (A2.dedup.filter fun a => decide (a ∉ A1)), (ATTR.lookup a).isSome := by
    intro a hmem
    exact attr_lookup_isSome a (hb6 a (List.mem_dedup.mp (List.mem_of_mem_filter hmem)))
  have hoffs : ∀ a ∈ ((A1.dedup.filter fun a => decide (a ∉ A2)).map invert_attr_label),
      (ATTR.lookup a).isSome := by
    intro a hmem
    obtain ⟨x, hx, hxa⟩ := List.mem_map.mp hmem
    exact hxa ▸ attr_inv_lookup_isSome x (ha6 x (List.mem_dedup.mp (List.mem_of_mem_filter hx)))
  unfold state_change state_change_spec
  rw [hf1, hf2, hg1, hg2, hA1, hA2]
  rw [colorAxisE_ok FG "fg" f1 f2 (color_lookup_isSome f2 hb2).1,
      colorAxisE_ok BG "bg" g1 g2 (color_lookup_isSome g2 hb4).2]
  simp only [Option.getD_some]
  rw [mapLookupE_ok ATTR _ hons, mapLookupE_ok ATTR _ hoffs]
  simp [List.map_map, Function.comp, List.append_assoc]

lemma reset_not_mem_spec (sa sb : PyState) (ha : wfPy sa) (hb : wfPy sb) :
    "\x1b[0m" ∉ state_change_spec sa sb := by
  obtain ⟨ha1, ha2, ha3, ha4, ha5, ha6⟩ := ha
  obtain ⟨hb1, hb2, hb3, hb4, hb5, hb6⟩ := hb
  have hcfg : ∀ l ∈ COLORkeys, axisCode FG l ≠ "\x1b[0m" := by decide
  have hcbg : ∀ l ∈ COLORkeys, axisCode BG l ≠ "\x1b[0m" := by decide
  have hattr : ∀ a ∈ ATTRkeys, axisCode ATTR a ≠ "\x1b[0m" := by decide
  have hinv : ∀ a ∈ ATTRkeys, axisCode ATTR (invert_attr_label a) ≠ "\x1b[0m" := by decide
  intro hmem
  unfold state_change_spec at hmem
  rcases List.mem_append.mp hmem with h1 | hrest
  · by_cases hc : sa.fg.getD "default" ≠ sb.fg.getD "default"
    · rw [if_pos hc] at h1
      rcases List.mem_singleton.mp h1 with h
      exact hcfg (sb.fg.getD "default") hb2 h.symm
    · rw [if_neg hc] at h1; exact absurd h1 (List.not_mem_nil _)
  rcases List.mem_append.mp hrest with h2 | hrest2
  · by_cases hc : sa.bg.getD "default" ≠ sb.bg.getD "default"
    · rw [if_pos hc] at h2
      rcases List.mem_singleton.mp h2 with h
      exact hcbg (sb.bg.getD "default") hb4 h.symm
    · rw [if_neg hc] at h2; exact absurd h2 (List.not_mem_nil _)
  rcases List.mem_append.mp hrest2 with h3 | h4
  · obtain ⟨x, hx, hxa⟩ := List.mem_map.mp h3
    exact hattr x (hb6 x (List.mem_dedup.mp (List.mem_of_mem_filter hx))) hxa
  · obtain ⟨x, hx, hxa⟩ := List.mem_map.mp h4
    exact hinv x (ha6 x (List.mem_dedup.mp (List.mem_of_mem_filter hx))) hxa

/-- Color only part of a state transition between fully keyed states. -/
def colorDiff (f1 b1 f2 b2 : String) : Except String (List String) :=
  match colorAxisE FG "fg" (some f1) (some f2) with
  | .error e => .error e
  | .ok cfg =>
    match colorAxisE BG "bg" (some b1) (some b2) with
    | .error e => .error e
    | .ok cbg => .ok (cfg ++ cbg)

lemma filter_dedup_self (A : List String) :
    (A.dedup.filter fun a => decide (a ∉ A)) = [] := by
  rw [List.filter_eq_nil_iff]
  intro a ha
  simp [List.mem_dedup.mp ha]

lemma state_change_same_attrs (f1 b1 f2 b2 : String) (A : List String) :
    state_change (toPy ⟨f1, b1, A⟩) (toPy ⟨f2, b2, A⟩) = colorDiff f1 b1 f2 b2 := by
  unfold state_change colorDiff toPy
  simp only [Option.getD_some, filter_dedup_self]
  cases colorAxisE FG "fg" (some f1) (some f2) with
  | error e => rfl
  | ok cfg =>
    cases colorAxisE BG "bg" (some b1) (some b2) with
    | error e => rfl
    | ok cbg => simp [mapLookupE]

lemma colorDiff_self (f b : String) : colorDiff f b f b = .ok [] := by
  unfold colorDiff colorAxisE
  simp

/-- Final contents of the single shared attrs list after rendering a node:
each node first applies its own toggles, then the children apply theirs in
rendering order. -/
def attrsF : AText → List String → List String
  | .txt _, A => A
  | .atom t _ _ ats, A => attrsF t (mergeAttrs A ats)
  | .pair c d _ _ ats, A => attrsF d (attrsF c (mergeAttrs A ats))

/-- Text produced by rendering a node, computed without the shared attrs
list: because that list is common to both sides of every state_change call
inside fmt, the attribute fragments of every transition are empty and the
output depends only on the color chain. -/
def outE : AText → String → String → Except String String
  | .txt s, _, _ => .ok s
  | .atom t f b _, fg, bg =>
    let nfg := overrideLabel f fg
    let nbg := overrideLabel b bg
    match colorDiff fg bg nfg nbg with
    | .error e => .error e
    | .ok setup =>
      match colorDiff nfg nbg fg bg with
      | .error e => .error e
      | .ok close =>
        match outE t nfg nbg with
        | .error e => .error e
        | .ok s => .ok (String.join setup ++ s ++ String.join close)
  | .pair c d f b _, fg, bg =>
    let nfg := overrideLabel f fg
    let nbg := overrideLabel b bg
    match colorDiff fg bg nfg nbg with
    | .error e => .error e
    | .ok setup =>
      match colorDiff nfg nbg fg bg with
      | .error e => .error e
      | .ok close =>
        match outE c nfg nbg with
        | .error e => .error e
        | .ok s1 =>
          match outE d nfg nbg with
          | .error e => .error e
          | .ok s2 => .ok (String.join setup ++ (s1 ++ s2) ++ String.join close)

lemma get_new_state_fields (fg bg : String) (A : List String)
    (f b : Option String) (ats : List String) :
    get_new_state ⟨fg, bg, A⟩ ⟨f, b, ats⟩ =
      (⟨fg, bg, mergeAttrs A ats⟩,
        ⟨overrideLabel f fg, overrideLabel b bg, mergeAttrs A ats⟩) := rfl

/-- The faithful render function factors through outE and attrsF: the text
and the error behaviour are independent of the incoming shared attrs list,
and the final attrs list is computed by the pure toggle fold. -/
theorem fmtE_factor (e : AText) : ∀ fg bg A,
    fmtE e fg bg A = (outE e fg bg).map (fun s => (s, attrsF e A)) := by
  induction e with
  | txt s => intro fg bg A; rfl
  | atom t f b ats ih =>
    intro fg bg A
    have e0 : fmtE (.atom t f b ats) fg bg A =
        match state_change (toPy ⟨fg, bg, mergeAttrs A ats⟩)
            (toPy ⟨overrideLabel f fg, overrideLabel b bg, mergeAttrs A ats⟩) with
        | .error e => .error e
        | .ok setup =>
          match state_change (toPy ⟨overrideLabel f fg, overrideLabel b bg, mergeAttrs A ats⟩)
              (toPy ⟨fg, bg, mergeAttrs A ats⟩) with
          | .error e => .error e
          | .ok close =>
            match fmtE t (overrideLabel f fg) (overrideLabel b bg) (mergeAttrs A ats) with
            | .error e => .error e
            | .ok r => .ok (String.join setup ++ r.1 ++ String.join close, r.2) := by
      cases f <;> cases b <;> rfl
    have e2 : outE (.atom t f b ats) fg bg =
        match colorDiff fg bg (overrideLabel f fg) (overrideLabel b bg) with
        | .error e => .error e
        | .ok setup =>
          match colorDiff (overrideLabel f fg) (overrideLabel b bg) fg bg with
          | .error e => .error e
          | .ok close =>
            match outE t (overrideLabel f fg) (overrideLabel b bg) with
            | .error e => .error e
            | .ok s => .ok (String.join setup ++ s ++ String.join close) := rfl
    rw [e0, e2, state_change_same_attrs, state_change_same_attrs]
    simp only [ih]
    cases colorDiff fg bg (overrideLabel f fg) (overrideLabel b bg) with
    | error e => rfl
    | ok setup =>
      cases colorDiff (overrideLabel f fg) (overrideLabel b bg) fg bg with
      | error e => rfl
      | ok close =>
        cases outE t (overrideLabel f fg) (overrideLabel b bg) with
        | error e => rfl
        | ok s => rfl
  | pair c d f b ats ihc ihd =>
    intro fg bg A
    have e0 : fmtE (.pair c d f b ats) fg bg A =
        match state_change (toPy ⟨fg, bg, mergeAttrs A ats⟩)
            (toPy ⟨overrideLabel f fg, overrideLabel b bg, mergeAttrs A ats⟩) with
        | .error e => .error e
        | .ok setup =>
          match state_change (toPy ⟨overrideLabel f fg, overrideLabel b bg, mergeAttrs A ats⟩)
              (toPy ⟨fg, bg, mergeAttrs A ats⟩) with
          | .error e => .error e
          | .ok close =>
            match fmtE c (overrideLabel f fg) (overrideLabel b bg) (mergeAttrs A ats) with
            | .error e => .error e
            | .ok r1 =>
              match fmtE d (overrideLabel f fg) (overrideLabel b bg) r1.2 with
              | .error e => .error e
              | .ok r2 =>
                .ok (String.join setup ++ (r1.1 ++ r2.1) ++ String.join close, r2.2) := by
      cases f <;> cases b <;> rfl
    have e2 : outE (.pair c d f b ats) fg bg =
        match colorDiff fg bg (overrideLabel f fg) (overrideLabel b bg) with
        | .error e => .error e
        | .ok setup =>
          match colorDiff (overrideLabel f fg) (overrideLabel b bg) fg bg with
          | .error e => .error e
          | .ok close =>
            match outE c (overrideLabel f fg) (overrideLabel b bg) with
            | .error e => .error e
            | .ok s1 =>
              match outE d (overrideLabel f fg) (overrideLabel b bg) with
              | .error e => .error e
              | .ok s2 => .ok (String.join setup ++ (s1 ++ s2) ++ String.join close) := rfl
    rw [e0, e2, state_change_same_attrs, state_change_same_attrs]
    simp only [ihc, ihd]
    cases colorDiff fg bg (overrideLabel f fg) (overrideLabel b bg) with
    | error e => rfl
    | ok setup =>
      cases colorDiff (overrideLabel f fg) (overrideLabel b bg) fg bg with
      | error e => rfl
      | ok close =>
        cases outE c (overrideLabel f fg) (overrideLabel b bg) with
        | error e => rfl
        | ok s1 =>
          cases outE d (overrideLabel f fg) (overrideLabel b bg) with
          | error e => rfl
          | ok s2 => rfl

lemma state_change_missing_fg (sa sb : PyState) (l : String)
    (h1 : sa.fg = some l) (h2 : l ≠ "default") (h3 : sb.fg = none) :
    state_change sa sb = .error (keyErr "fg") := by
  have hax : colorAxisE FG "fg" sa.fg sb.fg = .error (keyErr "fg") := by
    rw [h1, h3]
    simp [colorAxisE, h2]
  unfold state_change
  rw [hax]

lemma state_change_missing_bg (sa sb : PyState) (l : String)
    (h0 : sa.fg = sb.fg) (h1 : sa.bg = some l) (h2 : l ≠ "default") (h3 : sb.bg = none) :
    state_change sa sb = .error (keyErr "bg") := by
  have hfg : colorAxisE FG "fg" sa.fg sb.fg = .ok [] := by
    rw [h0]
    simp [colorAxisE]
  have hbg : colorAxisE BG "bg" sa.bg sb.bg = .error (keyErr "bg") := by
    rw [h1, h3]
    simp [colorAxisE, h2]
  unfold state_change
  rw [hfg, hbg]

/-- The expression of the worked example: aformat of the concatenation of
the plain text Hello Are, the red atom You, and the plain text Well,
wrapped with fg blue. -/
def helloExpr : AText :=
  .atom
    (.pair
      (.pair (.txt "Hello, Are ") (.atom (.txt "You") (some "red") none []) none none [])
      (.txt " Well") none none [])
    (some "blue") none []

/-- C1: rendering the blue-wrapped concatenation containing the red atom
from the default state yields exactly the documented byte string: the
transition after the inner red atom re-enters blue, and only the outermost
exit emits the default foreground code. -/
theorem C1_nested_restoration :
    toStr helloExpr = .ok "\x1b[34mHello, Are \x1b[31mYou\x1b[34m Well\x1b[39m" := by
  rfl

/-- C2: failing input for the no-mutation claim about get_new_state.  The
first component of the model is the current-state dictionary as observable
after the call: starting from the default state and toggling bold, the
attrs list of the current state has become the singleton bold, although it
was empty before the call, because the shallow dict copy shares the list. -/
theorem C2_mutation_failing_input :
    (get_new_state ⟨"default", "default", []⟩ ⟨none, none, ["bold"]⟩).1.attrs = ["bold"]
      ∧ "bold" ∉ ([] : List String) := by
  exact ⟨rfl, by decide⟩

/-- C3: failing input for the attribute rendering claim.  Rendering the
atom x with the single toggle bold from the default state produces the
bare text x with no escape codes at all, because the shared attrs list
makes the entry and exit diffs empty; the claim expects the bold code
before and the unbold code after the text. -/
theorem C3_attr_render_failing_input :
    toStr (.atom (.txt "x") none none ["bold"]) = .ok "x" := by
  rfl

/-- C4: counterexample.  An atom constructed with the attribute label zzz,
which is not defined in the catalog, is accepted at construction and
renders successfully to the bare text, so no UnknownLabel error is ever
signalled, neither at construction nor at any catalog lookup; the label is
silently carried without effect. -/
theorem C4_counterexample :
    toStr (.atom (.txt "x") none none ["zzz"]) = .ok "x" ∧ ATTR.lookup "zzz" = none := by
  exact ⟨rfl, by decide⟩

lemma str_append_empty (s : String) : s ++ "" = s := by
  cases s with
  | mk l =>
    show String.mk (l ++ []) = String.mk l
    rw [List.append_nil]

lemma unknown_fg_render_error (t c : String) (hne : c ≠ "") (h : FG.lookup c = none) :
    toStr (.atom (.txt t) (some c) none []) = .error (keyErr c) := by
  have hc : c ≠ "default" := by
    intro he
    rw [he] at h
    have hd : (FG.lookup "default").isSome := by decide
    rw [h] at hd
    exact Bool.noConfusion hd
  have ho : overrideLabel (some c) "default" = c := by
    simp [overrideLabel, hne]
  have hax : colorAxisE FG "fg" (some "default") (some c) = .error (keyErr c) := by
    simp only [colorAxisE, Option.getD_some]
    rw [if_pos (Ne.symm hc), h]
  have hcd : colorDiff "default" "default" c "default" = .error (keyErr c) := by
    unfold colorDiff
    rw [hax]
  unfold toStr renderText
  rw [fmtE_factor]
  have e2 : outE (.atom (.txt t) (some c) none []) "default" "default" =
      match colorDiff "default" "default" (overrideLabel (some c) "default") "default" with
      | .error e => .error e
      | .ok setup =>
        match colorDiff (overrideLabel (some c) "default") "default" "default" "default" with
        | .error e => .error e
        | .ok close =>
          match outE (.txt t) (overrideLabel (some c) "default") "default" with
          | .error e => .error e
          | .ok s => .ok (String.join setup ++ s ++ String.join close) := rfl
  rw [e2, ho, hcd]
  rfl

lemma unknown_bg_render_error (t c : String) (hne : c ≠ "") (h : BG.lookup c = none) :
    toStr (.atom (.txt t) none (some c) []) = .error (keyErr c) := by
  have hc : c ≠ "default" := by
    intro he
    rw [he] at h
    have hd : (BG.lookup "default").isSome := by decide
    rw [h] at hd
    exact Bool.noConfusion hd
  have ho : overrideLabel (some c) "default" = c := by
    simp [overrideLabel, hne]
  have hfgok : colorAxisE FG "fg" (some "default") (some "default") = .ok [] := by
    simp [colorAxisE]
  have hax : colorAxisE BG "bg" (some "default") (some c) = .error (keyErr c) := by
    simp only [colorAxisE, Option.getD_some]
    rw [if_pos (Ne.symm hc), h]
  have hcd : colorDiff "default" "default" "default" c = .error (keyErr c) := by
    unfold colorDiff
    rw [hfgok]
    show (match colorAxisE BG "bg" (some "default") (some c) with
      | Except.error e => (Except.error e : Except String (List String))
      | Except.ok cbg => Except.ok (([] : List String) ++ cbg)) = Except.error (keyErr c)
    rw [hax]
  unfold toStr renderText
  rw [fmtE_factor]
  have e2 : outE (.atom (.txt t) none (some c) []) "default" "default" =
      match colorDiff "default" "default" "default" (overrideLabel (some c) "default") with
      | .error e => .error e
      | .ok setup =>
        match colorDiff "default" (overrideLabel (some c) "default") "default" "default" with
        | .error e => .error e
        | .ok close =>
          match outE (.txt t) "default" (overrideLabel (some c) "default") with
          | .error e => .error e
          | .ok s => .ok (String.join setup ++ s ++ String.join close) := rfl
  rw [e2, ho, hcd]
  rfl

lemma attr_atom_renders_plain (t a : String) :
    toStr (.atom (.txt t) none none [a]) = .ok t := by
  unfold toStr renderText
  rw [fmtE_factor]
  have e2 : outE (.atom (.txt t) none none [a]) "default" "default" =
      match colorDiff "default" "default" "default" "default" with
      | .error e => .error e
      | .ok setup =>
        match colorDiff "default" "default" "default" "default" with
        | .error e => .error e
        | .ok close =>
          match outE (.txt t) "default" "default" with
          | .error e => .error e
          | .ok s => .ok (String.join setup ++ s ++ String.join close) := rfl
  rw [e2, colorDiff_self]
  have hs : String.join [] ++ t ++ String.join [] = t := by
    show "" ++ t ++ "" = t
    rw [String.empty_append, str_append_empty]
  show Except.ok (String.join [] ++ t ++ String.join []) = Except.ok t
  rw [hs]

/-- C4 amended: construction does not validate labels.  A nonempty unknown
foreground or background label raises a KeyError at the catalog lookup
inside state_change, that is during rendering, not at construction; the
empty string is falsy in the override guard, so it is skipped and renders
without error; and an attribute toggle never raises at all: an atom
carrying any single attribute label, known or unknown, renders without
error and without effect on the text. -/
theorem C4_amended_unknown_label :
    (∀ t c : String, c ≠ "" → FG.lookup c = none →
      toStr (.atom (.txt t) (some c) none []) = .error (keyErr c))
    ∧ (∀ t c : String, c ≠ "" → BG.lookup c = none →
      toStr (.atom (.txt t) none (some c) []) = .error (keyErr c))
    ∧ (∀ t a : String, toStr (.atom (.txt t) none none [a]) = .ok t) :=
  ⟨unknown_fg_render_error, unknown_bg_render_error, attr_atom_renders_plain⟩

/-- C4 amended, witness instantiating all three parts at concrete labels. -/
theorem C4_amended_witness :
    toStr (.atom (.txt "x") (some "nope") none []) = .error "KeyError: nope"
    ∧ toStr (.atom (.txt "y") none (some "nope") []) = .error "KeyError: nope"
    ∧ toStr (.atom (.txt "x") none none ["qqq"]) = .ok "x" := by
  refine ⟨?_, ?_, C4_amended_unknown_label.2.2 "x" "qqq"⟩
  · exact (C4_amended_unknown_label.1 "x" "nope" (by decide) (by decide)).trans
      (congrArg Except.error (by decide))
  · exact (C4_amended_unknown_label.2.1 "y" "nope" (by decide) (by decide)).trans
      (congrArg Except.error (by decide))

/-- C5: counterexample.  The catalog has a label at code 2 (faint), and
strike sits at code 9, outside the claimed range 1 through 8; its inverse
unstrike sits at code 29, outside the claimed range 21 through 28. -/
theorem C5_counterexample :
    ATTR.lookup "faint" = some "\x1b[2m"
      ∧ ATTR.lookup "strike" = some "\x1b[9m"
      ∧ "\x1b[9m" ≠ "\x1b[8m"
      ∧ ATTR.lookup "unstrike" = some "\x1b[29m"
      ∧ "\x1b[29m" ≠ "\x1b[28m" := by
  decide

/-- C5 amended: the attribute catalog maps the eight base labels to SGR
codes 1 to 9 with code 6 skipped (bold 1, faint 2, italic 3, underline 4,
blink 5, reverse 7, conceal 8, strike 9) and the paired inverse labels to
codes 21 to 29 with code 26 skipped, each entry being the escape
introducer followed by the decimal code and the letter m. -/
theorem C5_amended_catalog :
    ATTR = [("bold", "\x1b[1m"), ("faint", "\x1b[2m"), ("italic", "\x1b[3m"),
      ("underline", "\x1b[4m"), ("blink", "\x1b[5m"), ("reverse", "\x1b[7m"),
      ("conceal", "\x1b[8m"), ("strike", "\x1b[9m"), ("unbold", "\x1b[21m"),
      ("unfaint", "\x1b[22m"), ("unitalic", "\x1b[23m"), ("ununderline", "\x1b[24m"),
      ("unblink", "\x1b[25m"), ("unreverse", "\x1b[27m"), ("unconceal", "\x1b[28m"),
      ("unstrike", "\x1b[29m")] := by
  rfl

/-- C6: on well-formed states the diff engine emits exactly the sequence
described by the spec algorithm: color changes first in the order fg then
bg, each only when the two labels differ, then the codes of the attributes
only in the to state, then the codes of the paired inverse labels of the
attributes only in the from state; the global reset code never appears. -/
theorem C6_diff_order (sa sb : PyState) (ha : wfPy sa) (hb : wfPy sb) :
    state_change sa sb = .ok (state_change_spec sa sb)
      ∧ "\x1b[0m" ∉ state_change_spec sa sb :=
  ⟨state_change_wf_ok sa sb ha hb, reset_not_mem_spec sa sb ha hb⟩

/-- C6 witness at concrete states. -/
theorem C6_diff_order_witness :
    state_change ⟨some "blue", some "yellow", some ["bold"]⟩
        ⟨some "blue", some "default", some ["italic"]⟩
      = .ok ["\x1b[49m", "\x1b[3m", "\x1b[21m"]
      ∧ "\x1b[0m" ∉ (["\x1b[49m", "\x1b[3m", "\x1b[21m"] : List String) := by
  have h := C6_diff_order ⟨some "blue", some "yellow", some ["bold"]⟩
    ⟨some "blue", some "default", some ["italic"]⟩ (by decide) (by decide)
  exact ⟨h.1.trans (congrArg Except.ok (by decide)), by decide⟩

/-- C7: counterexample.  Starting from the default state, merging the
single toggle bold twice in succession yields the attribute list holding
bold twice: the attribute set now contains bold, which was not in the
original empty set, so the double application does not cancel. -/
theorem C7_counterexample :
    (get_new_state (get_new_state ⟨"default", "default", []⟩ ⟨none, none, ["bold"]⟩).2
        ⟨none, none, ["bold"]⟩).2.attrs = ["bold", "bold"]
      ∧ "bold" ∈ (["bold", "bold"] : List String)
      ∧ "bold" ∉ ([] : List String) := by
  exact ⟨rfl, by decide, by decide⟩

/-- C7 amended: applying the same base attribute twice stacks instead of
cancelling.  When the paired inverse of the base attribute is not in the
state, merging the toggle twice appends the label twice; cancellation only
happens through the paired inverse label. -/
theorem C7_amended_stacking (S : StyleState) (a : String) (h1 : a ∈ BASEkeys)
    (h2 : invert_attr_label a ∉ S.attrs) :
    (get_new_state (get_new_state S ⟨none, none, [a]⟩).2 ⟨none, none, [a]⟩).2.attrs
      = S.attrs ++ [a, a] := by
  have hne : invert_attr_label a ≠ a := base_inv_ne a h1
  have hred : (get_new_state (get_new_state S ⟨none, none, [a]⟩).2 ⟨none, none, [a]⟩).2.attrs
      = toggleAttr (toggleAttr S.attrs a) a := rfl
  have hstep1 : toggleAttr S.attrs a = S.attrs ++ [a] := by
    simp only [toggleAttr]
    rw [if_neg h2]
  have h3 : invert_attr_label a ∉ S.attrs ++ [a] := by
    intro hx
    rcases List.mem_append.mp hx with hx1 | hx2
    · exact h2 hx1
    · exact hne (List.mem_singleton.mp hx2)
  rw [hred, hstep1]
  simp only [toggleAttr]
  rw [if_neg h3, List.append_assoc]
  rfl

/-- C7 amended, witness: from a state holding italic, toggling bold twice
yields italic followed by bold twice. -/
theorem C7_amended_witness :
    (get_new_state (get_new_state ⟨"default", "default", ["italic"]⟩ ⟨none, none, ["bold"]⟩).2
        ⟨none, none, ["bold"]⟩).2.attrs = ["italic", "bold", "bold"] := by
  have h := C7_amended_stacking ⟨"default", "default", ["italic"]⟩ "bold" (by decide) (by decide)
  exact h.trans (by decide)

/-- C8: toggling bold and then unbold is a no-op on the attribute set.  On
any state that respects the invariant of not holding both bold and its
inverse at once, the set of attribute labels after the two merges equals
the original set. -/
theorem C8_attr_cancellation (S : StyleState)
    (h : ¬ ("bold" ∈ S.attrs ∧ "unbold" ∈ S.attrs)) :
    (get_new_state (get_new_state S ⟨none, none, ["bold"]⟩).2 ⟨none, none, ["unbold"]⟩).2.attrs.toFinset
      = S.attrs.toFinset := by
  have hib : invert_attr_label "bold" = "unbold" := by decide
  have hiu : invert_attr_label "unbold" = "bold" := by decide
  have hred : (get_new_state (get_new_state S ⟨none, none, ["bold"]⟩).2
        ⟨none, none, ["unbold"]⟩).2.attrs
      = toggleAttr (toggleAttr S.attrs "bold") "unbold" := rfl
  rw [hred]
  simp only [toggleAttr, hib, hiu]
  by_cases hu : "unbold" ∈ S.attrs
  · have hb : "bold" ∉ S.attrs := fun hb => h ⟨hb, hu⟩
    rw [if_pos hu]
    have hb2 : "bold" ∉ S.attrs.erase "unbold" := fun hx => hb (List.mem_of_mem_erase hx)
    rw [if_neg hb2]
    ext x
    simp only [List.mem_toFinset, List.mem_append, List.mem_singleton]
    constructor
    · rintro (hx | rfl)
      · exact List.mem_of_mem_erase hx
      · exact hu
    · intro hx
      by_cases hxu : x = "unbold"
      · exact Or.inr hxu
      · exact Or.inl ((List.mem_erase_of_ne hxu).mpr hx)
  · rw [if_neg hu]
    have hbmem : "bold" ∈ S.attrs ++ ["bold"] :=
      List.mem_append_right _ (List.mem_singleton.mpr rfl)
    rw [if_pos hbmem]
    by_cases hb : "bold" ∈ S.attrs
    · rw [List.erase_append_left _ hb]
      ext x
      simp only [List.mem_toFinset, List.mem_append, List.mem_singleton]
      constructor
      · rintro (hx | rfl)
        · exact List.mem_of_mem_erase hx
        · exact hb
      · intro hx
        by_cases hxb : x = "bold"
        · exact Or.inr hxb
        · exact Or.inl ((List.mem_erase_of_ne hxb).mpr hx)
    · rw [List.erase_append_right _ hb]
      simp

/-- C8 witness at a concrete state. -/
theorem C8_attr_cancellation_witness :
    (get_new_state (get_new_state ⟨"default", "default", ["italic"]⟩ ⟨none, none, ["bold"]⟩).2
        ⟨none, none, ["unbold"]⟩).2.attrs.toFinset
      = (["italic"] : List String).toFinset := by
  exact C8_attr_cancellation ⟨"default", "default", ["italic"]⟩ (by decide)

/-- C9: concatenation independence.  A pair node carrying no override of
its own renders, under any inherited colors and any contents of the shared
attrs list, to the concatenation of the two renders of its children under
that same inherited state; errors propagate identically. -/
theorem C9_concat_independence (a b : AText) (fg bg : String) (A : List String) :
    renderText (.pair a b none none []) fg bg A =
      (renderText a fg bg A).bind fun s1 =>
        (renderText b fg bg A).map fun s2 => s1 ++ s2 := by
  unfold renderText
  rw [fmtE_factor, fmtE_factor, fmtE_factor]
  have e2 : outE (.pair a b none none []) fg bg =
      match outE a fg bg with
      | .error e => .error e
      | .ok s1 =>
        match outE b fg bg with
        | .error e => .error e
        | .ok s2 => .ok (String.join [] ++ (s1 ++ s2) ++ String.join []) := by
    have e1 : outE (.pair a b none none []) fg bg =
        match colorDiff fg bg fg bg with
        | .error e => .error e
        | .ok setup =>
          match colorDiff fg bg fg bg with
          | .error e => .error e
          | .ok close =>
            match outE a fg bg with
            | .error e => .error e
            | .ok s1 =>
              match outE b fg bg with
              | .error e => .error e
              | .ok s2 => .ok (String.join setup ++ (s1 ++ s2) ++ String.join close) := rfl
    rw [e1, colorDiff_self]
  rw [e2]
  cases outE a fg bg with
  | error e => rfl
  | ok s1 =>
    cases outE b fg bg with
    | error e => rfl
    | ok s2 =>
      have hs : String.join [] ++ (s1 ++ s2) ++ String.join [] = s1 ++ s2 := by
        show "" ++ (s1 ++ s2) ++ "" = s1 ++ s2
        rw [String.empty_append, str_append_empty]
      simp only [Except.map, Except.bind, hs]

/-- C10: partiality and totality of state_change.  If the from state maps
fg to a non-default label and the to state omits the fg key, the unguarded
indexing raises KeyError on fg; symmetrically for bg once the fg axis
agrees; and on two well-formed states the function returns a sequence
without error. -/
theorem C10_state_change_totality :
    (∀ sa sb : PyState, ∀ l : String, sa.fg = some l → l ≠ "default" → sb.fg = none →
      state_change sa sb = .error (keyErr "fg"))
    ∧ (∀ sa sb : PyState, ∀ l : String, sa.fg = sb.fg → sa.bg = some l → l ≠ "default" →
      sb.bg = none → state_change sa sb = .error (keyErr "bg"))
    ∧ (∀ sa sb : PyState, wfPy sa → wfPy sb → ∃ r, state_change sa sb = .ok r) :=
  ⟨state_change_missing_fg, state_change_missing_bg,
    fun sa sb ha hb => ⟨state_change_spec sa sb, state_change_wf_ok sa sb ha hb⟩⟩

/-- C10 witness at concrete states. -/
theorem C10_witness :
    state_change ⟨some "blue", none, none⟩ ⟨none, none, none⟩ = .error (keyErr "fg")
    ∧ state_change ⟨some "red", some "blue", none⟩ ⟨some "red", none, none⟩
        = .error (keyErr "bg")
    ∧ ∃ r, state_change ⟨some "default", some "default", some []⟩
        ⟨some "red", some "default", some ["bold"]⟩ = .ok r := by
  exact ⟨C10_state_change_totality.1 _ _ "blue" rfl (by decide) rfl,
    C10_state_change_totality.2.1 _ _ "blue" rfl rfl (by decide) rfl,
    C10_state_change_totality.2.2 _ _ (by decide) (by decide)⟩

end KidsAnsi
